import Mathlib

/-!
Shallow embedding of the timecard App Engine application
(package `timecard`, single source file) in Lean 4.

The program is a set of HTTP handlers over the App Engine datastore and
user service.  We embed:

* the record types `User`, `Punch` and `appError` (here `AppError`);
* datastore keys (`Key`), the fixed parent keys `userKey` / `punchKey`,
  queries (kind, ancestor filter, order, limit) and their execution
  against an explicit store state (`Datastore`);
* the `http.ResponseWriter` as an explicit `Response` value
  (headers, the status set by `WriteHeader`, accumulated body), with
  Go's net/http convention that the first body write performs an
  implicit `WriteHeader(200)` and only the first `WriteHeader` wins;
* each handler (`rootHandler`, `myArrivalsHandler`, `myLeavesHandler`,
  `createPunch`, `apiAdminUsersHandler`, `getFormBoolValue`) and the two
  gates (`appHandler.ServeHTTP`, `apiHandler.ServeHTTP`) together with
  `handleAppError`, `redirect` and `writeJsonResponse`.

External services are oracles inside `Env`: the current identity
(`user.Current`), the login URL (`user.LoginURL`), the current time
(`time.Now`), and the possible failure of each datastore / template
call (a `some msg` injects the error the external call would return).
`c.Errorf` log lines are collected in a list; `c.Debugf` lines go to a
different log channel and are not modelled.
-/

/-- The identity returned by `user.Current`; only its `Email` field is
read by this program (the template prints the user value, which App
Engine renders as the email). -/
structure GoUser where
  email : String
deriving Repr, DecidableEq

/-- The `Punch` record: `{Puncher, Type, Time}`.  Time instants are
modelled as abstract `Nat` timestamps ordered as Go `time.Time`
instants are. -/
structure Punch where
  puncher : String
  type : String
  time : Nat
deriving Repr, DecidableEq

/-- The `User` record: `{Email, Name, Enabled}`. -/
structure User where
  email : String
  name : String
  enabled : Bool
deriving Repr, DecidableEq

/-- One element of a datastore key path: a kind plus either a string id,
a store-assigned integer id, or no id yet (`intID = none` marks the
element of an incomplete key before `Put` assigns an id). -/
structure PathElem where
  kind : String
  stringID : String
  intID : Option Nat
deriving Repr, DecidableEq

/-- A datastore key is its path, child element first, root element
last.  The nil parent of the Go API is the empty path. -/
abbrev Key := List PathElem

/-- Source: `datastore.NewKey(c, kind, stringID, intID, parent)`. -/
def newKey (kind stringID : String) (intID : Nat) (parent : Option Key) : Key :=
  ⟨kind, stringID, some intID⟩ :: parent.getD []

/-- Source: `datastore.NewIncompleteKey(c, kind, parent)`. -/
def newIncompleteKey (kind : String) (parent : Option Key) : Key :=
  ⟨kind, "", none⟩ :: parent.getD []

/-- Parent key, as the datastore sees it. -/
def Key.parentKey (k : Key) : Key := k.drop 1

/-- Ancestor test used by `Query.Ancestor` filters: the ancestor's path
is a proper, nonempty suffix of the key's path. -/
def Key.hasAncestor (k a : Key) : Prop :=
  a ≠ [] ∧ a <:+ k ∧ a ≠ k

instance (k a : Key) : Decidable (k.hasAncestor a) := by
  unfold Key.hasAncestor; infer_instance

/-- Source: `userKey` returns `datastore.NewKey(c, "User", "default_user", 0, nil)`. -/
def userKey : Key := newKey "User" "default_user" 0 none

/-- Source: `punchKey` returns `datastore.NewKey(c, "Punch", "default_punch", 0, nil)`. -/
def punchKey : Key := newKey "Punch" "default_punch" 0 none

/-- Source: `appError` carries the underlying `error`, the user-facing
message and the HTTP status code.  The underlying error value is
modelled by its message string. -/
structure AppError where
  cause : String
  message : String
  code : Nat
deriving Repr, DecidableEq

/-- The datastore state: entities of each kind with the complete key the
store assigned to them, plus the counter used to generate ids for
incomplete keys. -/
structure Datastore where
  nextId : Nat
  punches : List (Key × Punch)
  users : List (Key × User)
deriving Repr, DecidableEq

/-- The key a `datastore.Put` stores a record under: a complete key is
used as given; an incomplete key gets a store-generated integer id. -/
def Datastore.assignKey (ds : Datastore) (k : Key) : Key :=
  match k with
  | ⟨kind, sid, none⟩ :: parent => ⟨kind, sid, some ds.nextId⟩ :: parent
  | k => k

/-- Source: `datastore.Put(c, key, &p)` for a `Punch` entity. -/
def Datastore.putPunch (ds : Datastore) (k : Key) (p : Punch) : Datastore :=
  { ds with
    nextId := ds.nextId + 1
    punches := ds.punches ++ [(ds.assignKey k, p)] }

/-- Source: `datastore.Put(c, key, &u)` for a `User` entity. -/
def Datastore.putUser (ds : Datastore) (k : Key) (u : User) : Datastore :=
  { ds with
    nextId := ds.nextId + 1
    users := ds.users ++ [(ds.assignKey k, u)] }

/-- A datastore query as built by the
`NewQuery(kind).Ancestor(a).Order(f).Limit(n)` chain. -/
structure Query where
  kind : String
  ancestor : Option Key
  order : String
  limit : Option Nat
deriving Repr, DecidableEq

/-- Ordering used by `Order("Time")` on `Punch` entities. -/
def punchLe (a b : Punch) : Prop := a.time ≤ b.time

instance : DecidableRel punchLe := fun a b => Nat.decLe a.time b.time

instance : IsTotal Punch punchLe := ⟨fun a b => Nat.le_total a.time b.time⟩

instance : IsTrans Punch punchLe := ⟨fun _ _ _ hab hbc => Nat.le_trans hab hbc⟩

/-- Ordering used by `Order("Name")` on `User` entities. -/
def userLe (a b : User) : Prop := a.name ≤ b.name

instance : DecidableRel userLe := fun a b =>
  inferInstanceAs (Decidable (a.name ≤ b.name))

instance : IsTotal User userLe := ⟨fun a b => le_total a.name b.name⟩

instance : IsTrans User userLe := ⟨fun _ _ _ hab hbc => le_trans hab hbc⟩

/-- Execution of a `Punch` query by the datastore (`q.GetAll`): filter by
ancestor, sort by the order field ascending, apply the limit. -/
def getAllPunches (q : Query) (ds : Datastore) : List Punch :=
  let filtered :=
    match q.ancestor with
    | some a => (ds.punches.filter fun e => decide (e.1.hasAncestor a)).map Prod.snd
    | none => ds.punches.map Prod.snd
  let ordered :=
    if q.order = "Time" then List.insertionSort punchLe filtered else filtered
  match q.limit with
  | some n => ordered.take n
  | none => ordered

/-- Execution of a `User` query by the datastore (`q.GetAll`). -/
def getAllUsers (q : Query) (ds : Datastore) : List User :=
  let filtered :=
    match q.ancestor with
    | some a => (ds.users.filter fun e => decide (e.1.hasAncestor a)).map Prod.snd
    | none => ds.users.map Prod.snd
  let ordered :=
    if q.order = "Name" then List.insertionSort userLe filtered else filtered
  match q.limit with
  | some n => ordered.take n
  | none => ordered

/-- An HTTP request: method, URL, parsed form values
(`r.FormValue` returns the first value for the name, or `""`). -/
structure Request where
  method : String
  url : String
  form : List (String × String)
deriving Repr, DecidableEq

/-- Source: `r.FormValue(name)`. -/
def Request.formValue (r : Request) (name : String) : String :=
  match r.form.find? (fun kv => kv.1 = name) with
  | some kv => kv.2
  | none => ""

/-- The state of an `http.ResponseWriter`: headers, the status sent by
`WriteHeader` (none while unset), and the accumulated body. -/
structure Response where
  headers : List (String × String)
  status : Option Nat
  body : String
deriving Repr, DecidableEq

/-- A fresh response writer. -/
def emptyResponse : Response := ⟨[], none, ""⟩

/-- Go net/http: only the first `WriteHeader` takes effect. -/
def Response.writeHeader (w : Response) (code : Nat) : Response :=
  match w.status with
  | some _ => w
  | none => { w with status := some code }

/-- Go net/http: the first body write performs an implicit
`WriteHeader(200)`. -/
def Response.write (w : Response) (s : String) : Response :=
  { w with status := some (w.status.getD 200), body := w.body ++ s }

/-- Source: `w.Header().Set(k, v)` replaces the values for the key. -/
def Response.setHeader (w : Response) (k v : String) : Response :=
  { w with headers := (k, v) :: w.headers.filter (fun kv => kv.1 ≠ k) }

/-- Source: `w.Header().Add(k, v)` appends a value for the key. -/
def Response.addHeader (w : Response) (k v : String) : Response :=
  { w with headers := (k, v) :: w.headers }

/-- First header value for a key, as the client sees it. -/
def Response.getHeader (w : Response) (k : String) : Option String :=
  (w.headers.find? (fun kv => kv.1 = k)).map Prod.snd

/-- The status the net/http server actually sends: the explicit
`WriteHeader` value, or 200 when the handler returned without ever
writing one. -/
def Response.finalStatus (w : Response) : Nat := w.status.getD 200

/-- Go `http.Error(w, error, code)`: sets the plain-text content type,
sends the status code and writes the message followed by a newline. -/
def httpError (w : Response) (msg : String) (code : Nat) : Response :=
  ((((w.setHeader "Content-Type" "text/plain; charset=utf-8").setHeader
      "X-Content-Type-Options" "nosniff").writeHeader code).write (msg ++ "\n"))

/-- Source: `redirect(w, url)` sets the `Location` header and sends
status 302 (`http.StatusFound`). -/
def redirect (w : Response) (url : String) : Response :=
  (w.setHeader "Location" url).writeHeader 302

/-- The external environment of one request: the App Engine user
service, the clock, and the outcome of each fallible external call
(`some msg` makes that call fail with error `msg`; `none` lets it
succeed). -/
structure Env where
  currentUser : Option GoUser
  loginURL : String → Except String String
  now : Nat
  getAllPunchesErr : Option String
  getAllUsersErr : Option String
  putPunchErr : Option String
  putUserErr : Option String
  renderErr : Option String

/-- Rendering of `{{.User}}`: a non-nil App Engine user prints as its
email; Go prints a nil pointer as `<nil>` (unreachable under the gate). -/
def userString : Option GoUser → String
  | some u => u.email
  | none => "<nil>"

/-- Source: `formatDateTime` applies the Go layout `2006-01-02 15:04`
to the instant.  With instants abstracted to `Nat` the calendar text is
opaque; it is modelled as the decimal rendering of the instant (no
claim inspects the rendered text). -/
def formatDateTime (t : Nat) : String := toString t

/-- Output of `rootTemplate.Execute` on `{"User": u, "Punches": ps}`:
the literal template text with `{{.User}}` replaced and the
`{{range .Punches}}` block repeated per punch. -/
def renderRoot (u : Option GoUser) (ps : List Punch) : String :=
  "\n<html>\n  <head>\n    <title>Timecard</title>\n  </head>\n  <body>\n    <div>Hello, "
    ++ userString u ++ "!</div>\n    <ul>\n    "
    ++ String.join (ps.map (fun p =>
        "\n      <li>" ++ p.type ++ " " ++ formatDateTime p.time ++ "</li>\n    "))
    ++ "\n    </ul>\n    <form action=\"/my/arrivals\" method=\"post\">\n      <input type=\"submit\" value=\"Arrive\">\n    </form>\n    <form action=\"/my/leaves\" method=\"post\">\n      <input type=\"submit\" value=\"Leave\">\n    </form>\n  </body>\n</html>\n"

/-- The flat three-field object built per user in the handlers
(`map[string]interface\x7b\x7d` with keys email, name, enabled). -/
structure JsonUser where
  email : String
  name : String
  enabled : Bool
deriving Repr, DecidableEq

/-- The dynamic values this program ever hands to the JSON encoder:
`nil`, the `users` list envelope (whose list is the Go slice
`[]interface\x7b\x7d`, `none` when that slice is still nil), and the
single-`user` envelope. -/
inductive JsonData where
  | null
  | usersEnvelope (users : Option (List JsonUser))
  | userEnvelope (u : JsonUser)
deriving Repr, DecidableEq

/-- Minimal JSON string quoting (backslash and quote); Go additionally
escapes control and HTML characters, which no claim exercises. -/
def jsonEscape (s : String) : String :=
  s.foldl
    (fun acc c =>
      acc ++ (if c = '\\' then "\\\\" else if c = '"' then "\\\"" else String.singleton c))
    ""

/-- A JSON string literal. -/
def encodeJsonString (s : String) : String := "\"" ++ jsonEscape s ++ "\""

/-- Go `encoding/json` serializes a map with its keys in sorted order,
hence the field order email, enabled, name. -/
def JsonUser.encode (u : JsonUser) : String :=
  "\x7b\"email\":" ++ encodeJsonString u.email
    ++ ",\"enabled\":" ++ (if u.enabled then "true" else "false")
    ++ ",\"name\":" ++ encodeJsonString u.name ++ "\x7d"

/-- Serialization `json.NewEncoder(w).Encode(jsonData)` produces (the
encoder appends the trailing newline separately, in `writeJsonResponse`).
A nil `[]interface\x7b\x7d` slice serializes as `null`, not `[]`. -/
def JsonData.encode : JsonData → String
  | .null => "null"
  | .usersEnvelope none => "\x7b\"users\":null\x7d"
  | .usersEnvelope (some us) =>
      "\x7b\"users\":[" ++ String.intercalate "," (us.map JsonUser.encode) ++ "]\x7d"
  | .userEnvelope u => "\x7b\"user\":" ++ u.encode ++ "\x7d"

/-- Source: `writeJsonResponse` adds the JSON content type and encodes
the data into the body.  `Encode` never fails on the values above, so
the error return is always nil (its 500 branch in the API gate is
unreachable). -/
def writeJsonResponse (w : Response) (j : JsonData) : Response :=
  (w.addHeader "Content-Type" "application/json").write (j.encode ++ "\n")

/-- Source: `handleAppError(c, w, e)` logs the underlying cause
(`c.Errorf`) and writes the user message and status
(`http.Error(w, e.Message, e.Code)`).  Returns the response and the
log lines emitted. -/
def handleAppError (w : Response) (e : AppError) : Response × List String :=
  (httpError w e.message e.code, [e.cause])

/-- The Go type `appHandler`: a handler returning an optional
`appError`, possibly writing to the response and the store. -/
abbrev AppHandler :=
  Env → Request → Response → Datastore → Option AppError × Response × Datastore

/-- The Go type `apiHandler`: a handler returning JSON data and an
optional `appError`, possibly writing to the store. -/
abbrev ApiHandler :=
  Env → Request → Datastore → JsonData × Option AppError × Datastore

/-- Source: `appHandler.ServeHTTP`.  Resolves the identity; if absent,
builds a login URL (on failure: log and 500 with the error text) and
redirects (302); otherwise runs the wrapped handler and converts a
non-nil `appError` via `handleAppError`.  Returns the response, the
final store state and the `Errorf` log lines. -/
def appHandlerServeHTTP (fn : AppHandler) (env : Env) (req : Request)
    (ds : Datastore) : Response × Datastore × List String :=
  match env.currentUser with
  | none =>
      match env.loginURL req.url with
      | .error errMsg => (httpError emptyResponse errMsg 500, ds, [errMsg])
      | .ok url => (redirect emptyResponse url, ds, [])
  | some _ =>
      match fn env req emptyResponse ds with
      | (none, w, ds') => (w, ds', [])
      | (some e, w, ds') =>
          let he := handleAppError w e
          (he.1, ds', he.2)

/-- Source: `apiHandler.ServeHTTP`.  Resolves the identity; if absent,
logs and answers 500 `login needed` without running the handler.
Otherwise runs the handler, converts a non-nil `appError` via
`handleAppError` — and then, with no early return in the source, still
calls `writeJsonResponse` on the (nil) JSON data, appending its
encoding to the body.  `Encode` never fails here, so its error branch
is unreachable. -/
def apiHandlerServeHTTP (fn : ApiHandler) (env : Env) (req : Request)
    (ds : Datastore) : Response × Datastore × List String :=
  match env.currentUser with
  | none => (httpError emptyResponse "login needed" 500, ds, ["login needed"])
  | some _ =>
      match fn env req ds with
      | (jsonData, some e, ds') =>
          let he := handleAppError emptyResponse e
          (writeJsonResponse he.1 jsonData, ds', he.2)
      | (jsonData, none, ds') =>
          (writeJsonResponse emptyResponse jsonData, ds', [])

/-- The query built in `rootHandler`:
`datastore.NewQuery("Punch").Ancestor(punchKey(c)).Order("Time").Limit(10)`. -/
def punchesQuery : Query :=
  { kind := "Punch", ancestor := some punchKey, order := "Time", limit := some 10 }

/-- The query built in `apiAdminUsersHandler`:
`datastore.NewQuery("User").Ancestor(punchKey(c)).Order("Name")`. -/
def usersQuery : Query :=
  { kind := "User", ancestor := some punchKey, order := "Name", limit := none }

/-- Source: `rootHandler`.  Fetches up to 10 punches ordered by time
(500 on fetch failure), renders the root template over them (500 on
render failure). -/
def rootHandler (env : Env) (_req : Request) (w : Response) (ds : Datastore) :
    Option AppError × Response × Datastore :=
  let u := env.currentUser
  match env.getAllPunchesErr with
  | some errMsg =>
      (some ⟨errMsg, "Failed to fetch punches data from the datastore", 500⟩, w, ds)
  | none =>
      let punches := getAllPunches punchesQuery ds
      match env.renderErr with
      | some errMsg =>
          (some ⟨errMsg, "Failed to execute the root template", 500⟩, w, ds)
      | none => (none, w.write (renderRoot u punches), ds)

/-- Source: `createPunch(c, punchType)`.  Builds a punch stamped with
the caller's email, the given type and the current time, and puts it
under an incomplete key with parent `punchKey`.  The gate guarantees a
non-nil current user; the nil case would be a nil-pointer crash in Go
and the `getD ""` default is unreachable. -/
def createPunch (env : Env) (punchType : String) (ds : Datastore) :
    Option AppError × Datastore :=
  let p : Punch :=
    { puncher := (env.currentUser.map GoUser.email).getD ""
      type := punchType
      time := env.now }
  match env.putPunchErr with
  | some errMsg =>
      (some ⟨errMsg, "Failed to put a punch data to the datastore", 500⟩, ds)
  | none => (none, ds.putPunch (newIncompleteKey "Punch" (some punchKey)) p)

/-- Source: `myArrivalsHandler`.  On POST creates an "arrival" punch and
redirects to `/`; on any other method does nothing. -/
def myArrivalsHandler (env : Env) (req : Request) (w : Response) (ds : Datastore) :
    Option AppError × Response × Datastore :=
  if req.method = "POST" then
    match createPunch env "arrival" ds with
    | (some e, ds') => (some e, w, ds')
    | (none, ds') => (none, redirect w "/", ds')
  else (none, w, ds)

/-- Source: `myLeavesHandler`.  On POST creates a "leave" punch and
redirects to `/`; on any other method does nothing. -/
def myLeavesHandler (env : Env) (req : Request) (w : Response) (ds : Datastore) :
    Option AppError × Response × Datastore :=
  if req.method = "POST" then
    match createPunch env "leave" ds with
    | (some e, ds') => (some e, w, ds')
    | (none, ds') => (none, redirect w "/", ds')
  else (none, w, ds)

/-- Go `strconv.ParseBool`: accepts exactly these twelve strings. -/
def parseBool (s : String) : Option Bool :=
  if s = "1" ∨ s = "t" ∨ s = "T" ∨ s = "TRUE" ∨ s = "true" ∨ s = "True" then some true
  else if s = "0" ∨ s = "f" ∨ s = "F" ∨ s = "FALSE" ∨ s = "false" ∨ s = "False" then some false
  else none

/-- Source: `getFormBoolValue(r, name, defaultValue)`.  An absent
(empty) form value yields the default; a present value is parsed with
`strconv.ParseBool`, a parse failure yielding a 400 `appError` naming
the parameter. -/
def getFormBoolValue (r : Request) (name : String) (defaultValue : Bool) :
    Bool × Option AppError :=
  let strValue := r.formValue name
  if strValue ≠ "" then
    match parseBool strValue with
    | some b => (b, none)
    | none =>
        (false,
          some ⟨"strconv.ParseBool: parsing \"" ++ strValue ++ "\": invalid syntax",
            "Failed to parse the \"" ++ name ++ "\" parameter as a boolean value",
            400⟩)
  else (defaultValue, none)

/-- Projection of a stored user into the flat three-field JSON object. -/
def jsonUserOf (u : User) : JsonUser := ⟨u.email, u.name, u.enabled⟩

/-- The key built for the POST insert in `apiAdminUsersHandler`:
`datastore.NewIncompleteKey(c, "User", punchKey(c))`. -/
def adminUserPutKey : Key := newIncompleteKey "User" (some punchKey)

/-- Source: `apiAdminUsersHandler`.  GET lists users (the envelope's
list stays the nil slice when no user matched); POST parses the
`enabled` field, builds a user from the form and inserts it under
`adminUserPutKey`, echoing it back; any other method yields a 400
`appError`.  The `c.Debugf` line logs to a channel not modelled here. -/
def apiAdminUsersHandler (env : Env) (req : Request) (ds : Datastore) :
    JsonData × Option AppError × Datastore :=
  if req.method = "GET" then
    match env.getAllUsersErr with
    | some errMsg =>
        (.null, some ⟨errMsg, "Failed to fetch users data from the datastore", 500⟩, ds)
    | none =>
        let users := getAllUsers usersQuery ds
        let jsonUsers : Option (List JsonUser) :=
          match users with
          | [] => none
          | _ => some (users.map jsonUserOf)
        (.usersEnvelope jsonUsers, none, ds)
  else if req.method = "POST" then
    match getFormBoolValue req "enabled" true with
    | (_, some appErr) => (.null, some appErr, ds)
    | (enabled, none) =>
        let u : User :=
          { email := req.formValue "email"
            name := req.formValue "name"
            enabled := enabled }
        match env.putUserErr with
        | some errMsg =>
            (.null, some ⟨errMsg, "Failed to put a user data to the datastore", 500⟩, ds)
        | none =>
            let ds' := ds.putUser adminUserPutKey u
            (.userEnvelope ⟨req.formValue "email", u.name, u.enabled⟩, none, ds')
  else
    (.null, some ⟨"Unsupported http method", "Unsupported http method", 400⟩, ds)

/-! ### Concrete fixtures used by witnesses and counterexamples -/

/-- A concrete authenticated identity. -/
def alice : GoUser := ⟨"alice@example.com"⟩

/-- An environment with an authenticated user and no external failures. -/
def env0 : Env :=
  { currentUser := some alice
    loginURL := fun _ => .ok "https://accounts.example/login"
    now := 42
    getAllPunchesErr := none
    getAllUsersErr := none
    putPunchErr := none
    putUserErr := none
    renderErr := none }

/-- The same environment with no authenticated identity. -/
def envAnon : Env := { env0 with currentUser := none }

/-- The authenticated environment with a failing punch fetch. -/
def envFetchFail : Env := { env0 with getAllPunchesErr := some "datastore: boom" }

/-- An empty datastore. -/
def ds0 : Datastore := ⟨0, [], []⟩

/-- A GET request for the root page. -/
def reqRoot : Request := ⟨"GET", "/", []⟩

/-- A POST to the arrivals endpoint. -/
def reqPostArrivals : Request := ⟨"POST", "/my/arrivals", []⟩

/-- A GET to the arrivals endpoint. -/
def reqGetArrivals : Request := ⟨"GET", "/my/arrivals", []⟩

/-- A GET to the admin users endpoint. -/
def reqGetUsers : Request := ⟨"GET", "/api/admin/users", []⟩

/-- A PUT (unsupported method) to the admin users endpoint. -/
def reqPutUsers : Request := ⟨"PUT", "/api/admin/users", []⟩

/-- A POST to the admin users endpoint with no `enabled` field. -/
def reqPostUser : Request :=
  ⟨"POST", "/api/admin/users", [("email", "bob@example.com"), ("name", "Bob")]⟩

/-! ### Claims -/

/-- C2: for every request with no resolvable identity, the JSON gate
answers 500 with body `login needed` (and no Location header, hence no
302 redirect), leaves the store untouched, and never invokes the
wrapped handler — the result is the same for every handler `fn`. -/
theorem C2_api_unauthenticated (fn : ApiHandler) (env : Env) (req : Request)
    (ds : Datastore) (hanon : env.currentUser = none) :
    apiHandlerServeHTTP fn env req ds =
      (httpError emptyResponse "login needed" 500, ds, ["login needed"]) ∧
    (httpError emptyResponse "login needed" 500).status = some 500 ∧
    (httpError emptyResponse "login needed" 500).body = "login needed\n" ∧
    (httpError emptyResponse "login needed" 500).status ≠ some 302 ∧
    (httpError emptyResponse "login needed" 500).getHeader "Location" = none := by
  have h : apiHandlerServeHTTP fn env req ds =
      (httpError emptyResponse "login needed" 500, ds, ["login needed"]) := by
    unfold apiHandlerServeHTTP
    rw [hanon]
  exact ⟨h, by decide, by decide, by decide, by decide⟩

/-- Witness for C2 at a concrete unauthenticated request. -/
theorem C2_api_unauthenticated_witness :
    apiHandlerServeHTTP apiAdminUsersHandler envAnon reqGetUsers ds0 =
      (httpError emptyResponse "login needed" 500, ds0, ["login needed"]) :=
  (C2_api_unauthenticated apiAdminUsersHandler envAnon reqGetUsers ds0 rfl).1

/-- C9: for a method that is neither GET nor POST, `apiAdminUsersHandler`
returns a 400 `appError` with the unsupported-method message and leaves
the store exactly as it was; through the gate the client sees status
400. -/
theorem C9_unsupported_method (env : Env) (req : Request) (ds : Datastore)
    (u : GoUser) (hu : env.currentUser = some u)
    (hget : req.method ≠ "GET") (hpost : req.method ≠ "POST") :
    apiAdminUsersHandler env req ds =
      (.null, some ⟨"Unsupported http method", "Unsupported http method", 400⟩, ds) ∧
    (apiHandlerServeHTTP apiAdminUsersHandler env req ds).2.1 = ds ∧
    (apiHandlerServeHTTP apiAdminUsersHandler env req ds).1.status = some 400 ∧
    (apiHandlerServeHTTP apiAdminUsersHandler env req ds).1.body =
      "Unsupported http method\nnull\n" := by
  have h : apiAdminUsersHandler env req ds =
      (.null, some ⟨"Unsupported http method", "Unsupported http method", 400⟩, ds) := by
    unfold apiAdminUsersHandler
    rw [if_neg hget, if_neg hpost]
  have hg : apiHandlerServeHTTP apiAdminUsersHandler env req ds =
      (writeJsonResponse
        (httpError emptyResponse "Unsupported http method" 400) .null, ds,
        ["Unsupported http method"]) := by
    unfold apiHandlerServeHTTP
    rw [hu, h]
    rfl
  refine ⟨h, ?_, ?_, ?_⟩ <;> rw [hg] <;> rfl

/-- Witness for C9 at a concrete PUT request. -/
theorem C9_unsupported_method_witness :
    apiAdminUsersHandler env0 reqPutUsers ds0 =
      (.null, some ⟨"Unsupported http method", "Unsupported http method", 400⟩, ds0) :=
  (C9_unsupported_method env0 reqPutUsers ds0 alice rfl
    (by decide) (by decide)).1

/-- C10: both user-record operations use the fixed Punch parent key
(kind `Punch`, name `default_punch`): the GET list query's ancestor is
`punchKey`, the POST insert key's parent is `punchKey`, and `punchKey`
differs from the defined (but never used) `userKey`; consequently any
user entity the handler adds is stored under parent `punchKey`. -/
theorem C10_user_ops_use_punch_parent :
    usersQuery.ancestor = some punchKey ∧
    adminUserPutKey.parentKey = punchKey ∧
    punchKey ≠ userKey ∧
    ∀ env req ds, ((apiAdminUsersHandler env req ds).2.2).users = ds.users ∨
      ∃ u, ((apiAdminUsersHandler env req ds).2.2).users =
          ds.users ++ [(ds.assignKey adminUserPutKey, u)] ∧
        (ds.assignKey adminUserPutKey).parentKey = punchKey := by
  refine ⟨rfl, rfl, by decide, ?_⟩
  intro env req ds
  unfold apiAdminUsersHandler
  by_cases hget : req.method = "GET"
  · rw [if_pos hget]
    cases env.getAllUsersErr <;> simp
  · rw [if_neg hget]
    by_cases hpost : req.method = "POST"
    · rw [if_pos hpost]
      rcases hfb : getFormBoolValue req "enabled" true with ⟨b, appErr⟩
      cases appErr with
      | some e => simp
      | none =>
          cases env.putUserErr with
          | some e => simp
          | none =>
              right
              exact ⟨_, rfl, rfl⟩
    · rw [if_neg hpost]
      simp

/-- C3: for every unauthenticated request through the HTML gate the
wrapped handler is never invoked (the result is the same for every
handler `fn`): when the login URL is produced the response is a 302
whose `Location` header is that URL, and when producing it fails the
response is a 500 carrying the failure's message. -/
theorem C3_app_unauthenticated (fn : AppHandler) (env : Env) (req : Request)
    (ds : Datastore) (hanon : env.currentUser = none) :
    (∀ url, env.loginURL req.url = .ok url →
      appHandlerServeHTTP fn env req ds = (redirect emptyResponse url, ds, []) ∧
      (redirect emptyResponse url).status = some 302 ∧
      (redirect emptyResponse url).getHeader "Location" = some url ∧
      (redirect emptyResponse url).body = "") ∧
    (∀ errMsg, env.loginURL req.url = .error errMsg →
      appHandlerServeHTTP fn env req ds =
        (httpError emptyResponse errMsg 500, ds, [errMsg]) ∧
      (httpError emptyResponse errMsg 500).status = some 500 ∧
      (httpError emptyResponse errMsg 500).body = errMsg ++ "\n") := by
  constructor
  · intro url hurl
    have h : appHandlerServeHTTP fn env req ds = (redirect emptyResponse url, ds, []) := by
      unfold appHandlerServeHTTP
      rw [hanon, hurl]
    refine ⟨h, rfl, ?_, rfl⟩
    simp [redirect, Response.getHeader, Response.setHeader, Response.writeHeader,
      emptyResponse]
  · intro errMsg herr
    have h : appHandlerServeHTTP fn env req ds =
        (httpError emptyResponse errMsg 500, ds, [errMsg]) := by
      unfold appHandlerServeHTTP
      rw [hanon, herr]
    exact ⟨h, rfl, rfl⟩

/-- Witness for C3 at a concrete unauthenticated request whose login
URL is produced successfully. -/
theorem C3_app_unauthenticated_witness :
    appHandlerServeHTTP rootHandler envAnon reqRoot ds0 =
      (redirect emptyResponse "https://accounts.example/login", ds0, []) :=
  ((C3_app_unauthenticated rootHandler envAnon reqRoot ds0 rfl).1
    "https://accounts.example/login" rfl).1

/-- C5: for every authenticated POST through the HTML gate to the
arrivals (respectively leaves) endpoint with a successful insert, a
punch with the caller's email, literal type `arrival` (respectively
`leave`) and the current time is appended under a store-generated key
whose parent is `punchKey`, and the response is a 302 redirect to `/`. -/
theorem C5_post_creates_punch (env : Env) (req : Request) (ds : Datastore)
    (u : GoUser) (hu : env.currentUser = some u) (hm : req.method = "POST")
    (hput : env.putPunchErr = none) :
    appHandlerServeHTTP myArrivalsHandler env req ds =
      (redirect emptyResponse "/",
        { ds with
          nextId := ds.nextId + 1
          punches := ds.punches ++
            [(⟨"Punch", "", some ds.nextId⟩ :: punchKey, ⟨u.email, "arrival", env.now⟩)] },
        []) ∧
    appHandlerServeHTTP myLeavesHandler env req ds =
      (redirect emptyResponse "/",
        { ds with
          nextId := ds.nextId + 1
          punches := ds.punches ++
            [(⟨"Punch", "", some ds.nextId⟩ :: punchKey, ⟨u.email, "leave", env.now⟩)] },
        []) ∧
    Key.parentKey (⟨"Punch", "", some ds.nextId⟩ :: punchKey) = punchKey ∧
    (redirect emptyResponse "/").status = some 302 ∧
    (redirect emptyResponse "/").getHeader "Location" = some "/" := by
  have harr : appHandlerServeHTTP myArrivalsHandler env req ds =
      (redirect emptyResponse "/",
        { ds with
          nextId := ds.nextId + 1
          punches := ds.punches ++
            [(⟨"Punch", "", some ds.nextId⟩ :: punchKey, ⟨u.email, "arrival", env.now⟩)] },
        []) := by
    unfold appHandlerServeHTTP myArrivalsHandler createPunch
    rw [hu, hput, if_pos hm]
    rfl
  have hlea : appHandlerServeHTTP myLeavesHandler env req ds =
      (redirect emptyResponse "/",
        { ds with
          nextId := ds.nextId + 1
          punches := ds.punches ++
            [(⟨"Punch", "", some ds.nextId⟩ :: punchKey, ⟨u.email, "leave", env.now⟩)] },
        []) := by
    unfold appHandlerServeHTTP myLeavesHandler createPunch
    rw [hu, hput, if_pos hm]
    rfl
  exact ⟨harr, hlea, rfl, rfl, by decide⟩

/-- Witness for C5 at a concrete authenticated POST on an empty store. -/
theorem C5_post_creates_punch_witness :
    appHandlerServeHTTP myArrivalsHandler env0 reqPostArrivals ds0 =
      (redirect emptyResponse "/",
        { ds0 with
          nextId := 1
          punches := [(⟨"Punch", "", some 0⟩ :: punchKey, ⟨"alice@example.com", "arrival", 42⟩)] },
        []) :=
  (C5_post_creates_punch env0 reqPostArrivals ds0 alice rfl rfl rfl).1

/-- C6: for every authenticated request to the arrivals or leaves
endpoint whose method is not POST, the store is unchanged and the
handler writes nothing: the response is the untouched writer, which the
server sends as a 200 with an empty body. -/
theorem C6_non_post_noop (env : Env) (req : Request) (ds : Datastore)
    (u : GoUser) (hu : env.currentUser = some u) (hm : req.method ≠ "POST") :
    appHandlerServeHTTP myArrivalsHandler env req ds = (emptyResponse, ds, []) ∧
    appHandlerServeHTTP myLeavesHandler env req ds = (emptyResponse, ds, []) ∧
    emptyResponse.finalStatus = 200 ∧
    emptyResponse.body = "" := by
  have harr : appHandlerServeHTTP myArrivalsHandler env req ds =
      (emptyResponse, ds, []) := by
    unfold appHandlerServeHTTP myArrivalsHandler
    rw [hu, if_neg hm]
  have hlea : appHandlerServeHTTP myLeavesHandler env req ds =
      (emptyResponse, ds, []) := by
    unfold appHandlerServeHTTP myLeavesHandler
    rw [hu, if_neg hm]
  exact ⟨harr, hlea, rfl, rfl⟩

/-- Witness for C6 at a concrete authenticated GET. -/
theorem C6_non_post_noop_witness :
    appHandlerServeHTTP myArrivalsHandler env0 reqGetArrivals ds0 =
      (emptyResponse, ds0, []) :=
  (C6_non_post_noop env0 reqGetArrivals ds0 alice rfl (by decide)).1

/-- C4: for every authenticated request to the root page (any method)
with the fetch and the render succeeding, the gate responds with the
rendered page over exactly the punches returned by `punchesQuery` — the
query over the fixed punch collection ordered by time ascending with
limit 10 — and that list is sorted by timestamp ascending and never
longer than 10. -/
theorem C4_root_lists_at_most_ten (env : Env) (req : Request) (ds : Datastore)
    (u : GoUser) (hu : env.currentUser = some u)
    (hq : env.getAllPunchesErr = none) (hr : env.renderErr = none) :
    appHandlerServeHTTP rootHandler env req ds =
      (emptyResponse.write (renderRoot (some u) (getAllPunches punchesQuery ds)), ds, []) ∧
    (getAllPunches punchesQuery ds).length ≤ 10 ∧
    List.Sorted punchLe (getAllPunches punchesQuery ds) ∧
    punchesQuery.ancestor = some punchKey ∧
    punchesQuery.order = "Time" ∧
    punchesQuery.limit = some 10 := by
  have hgate : appHandlerServeHTTP rootHandler env req ds =
      (emptyResponse.write (renderRoot (some u) (getAllPunches punchesQuery ds)), ds, []) := by
    unfold appHandlerServeHTTP rootHandler
    rw [hu, hq, hr]
  have hlen : (getAllPunches punchesQuery ds).length ≤ 10 := by
    show ((List.insertionSort punchLe
      ((ds.punches.filter fun e => decide (e.1.hasAncestor punchKey)).map
        Prod.snd)).take 10).length ≤ 10
    exact List.length_take_le 10 _
  have hsort : List.Sorted punchLe (getAllPunches punchesQuery ds) := by
    show List.Sorted punchLe ((List.insertionSort punchLe
      ((ds.punches.filter fun e => decide (e.1.hasAncestor punchKey)).map
        Prod.snd)).take 10)
    exact List.Pairwise.sublist (List.take_sublist 10 _)
      (List.sorted_insertionSort punchLe _)
  exact ⟨hgate, hlen, hsort, rfl, rfl, rfl⟩

/-- Witness for C4 at a concrete authenticated request. -/
theorem C4_root_lists_at_most_ten_witness :
    appHandlerServeHTTP rootHandler env0 reqRoot ds0 =
      (emptyResponse.write (renderRoot (some alice) (getAllPunches punchesQuery ds0)), ds0, []) :=
  (C4_root_lists_at_most_ten env0 reqRoot ds0 alice rfl rfl rfl).1

/-- C7: for every authenticated POST to the admin users endpoint with a
successful insert: an absent (empty) `enabled` field yields a created
user and an echoed envelope with `enabled = true`; a present value that
parses as a boolean is used as parsed; a present value that does not
parse yields a 400 response carrying the message that names the
`enabled` parameter, and no user record is inserted. -/
theorem C7_enabled_field (env : Env) (req : Request) (ds : Datastore)
    (u : GoUser) (hu : env.currentUser = some u) (hm : req.method = "POST")
    (hput : env.putUserErr = none) :
    (req.formValue "enabled" = "" →
      apiAdminUsersHandler env req ds =
        (.userEnvelope ⟨req.formValue "email", req.formValue "name", true⟩, none,
          ds.putUser adminUserPutKey
            ⟨req.formValue "email", req.formValue "name", true⟩)) ∧
    (∀ b, parseBool (req.formValue "enabled") = some b →
      apiAdminUsersHandler env req ds =
        (.userEnvelope ⟨req.formValue "email", req.formValue "name", b⟩, none,
          ds.putUser adminUserPutKey
            ⟨req.formValue "email", req.formValue "name", b⟩)) ∧
    (req.formValue "enabled" ≠ "" → parseBool (req.formValue "enabled") = none →
      apiAdminUsersHandler env req ds =
        (.null,
          some ⟨"strconv.ParseBool: parsing \"" ++ req.formValue "enabled"
              ++ "\": invalid syntax",
            "Failed to parse the \"enabled\" parameter as a boolean value", 400⟩,
          ds) ∧
      (apiHandlerServeHTTP apiAdminUsersHandler env req ds).1.status = some 400 ∧
      (apiHandlerServeHTTP apiAdminUsersHandler env req ds).1.body =
        "Failed to parse the \"enabled\" parameter as a boolean value\nnull\n" ∧
      (apiHandlerServeHTTP apiAdminUsersHandler env req ds).2.1 = ds) := by
  have hget : req.method ≠ "GET" := by rw [hm]; decide
  refine ⟨?_, ?_, ?_⟩
  · intro hempty
    unfold apiAdminUsersHandler getFormBoolValue
    rw [if_neg hget, if_pos hm, hempty, hput]
    rfl
  · intro b hb
    have hne : req.formValue "enabled" ≠ "" := by
      intro h0
      rw [h0] at hb
      rw [show parseBool "" = none from rfl] at hb
      cases hb
    unfold apiAdminUsersHandler getFormBoolValue
    rw [if_neg hget, if_pos hm]
    rw [if_pos hne, hb, hput]
  · intro hne hpb
    have h : apiAdminUsersHandler env req ds =
        (.null,
          some ⟨"strconv.ParseBool: parsing \"" ++ req.formValue "enabled"
              ++ "\": invalid syntax",
            "Failed to parse the \"enabled\" parameter as a boolean value", 400⟩,
          ds) := by
      unfold apiAdminUsersHandler getFormBoolValue
      rw [if_neg hget, if_pos hm]
      rw [if_pos hne, hpb]
      rfl
    have hg : apiHandlerServeHTTP apiAdminUsersHandler env req ds =
        (writeJsonResponse
          (httpError emptyResponse
            "Failed to parse the \"enabled\" parameter as a boolean value" 400)
          .null, ds,
          ["strconv.ParseBool: parsing \"" ++ req.formValue "enabled"
            ++ "\": invalid syntax"]) := by
      unfold apiHandlerServeHTTP
      rw [hu, h]
      rfl
    refine ⟨h, ?_, ?_, ?_⟩ <;> rw [hg] <;> rfl

/-- Witness for C7 at a concrete POST with no `enabled` field. -/
theorem C7_enabled_field_witness :
    apiAdminUsersHandler env0 reqPostUser ds0 =
      (.userEnvelope ⟨"bob@example.com", "Bob", true⟩, none,
        ds0.putUser adminUserPutKey ⟨"bob@example.com", "Bob", true⟩) :=
  (C7_enabled_field env0 reqPostUser ds0 alice rfl rfl rfl).1 rfl

/-- C8 counterexample: with an authenticated GET against a store holding
zero users, the envelope's `users` key holds JSON `null`, not an array
— the claim's zero-user clause (the envelope "still contains a users
array") fails on the code. -/
theorem C8_counterexample :
    (apiAdminUsersHandler env0 reqGetUsers ds0).1 = JsonData.usersEnvelope none ∧
    (apiHandlerServeHTTP apiAdminUsersHandler env0 reqGetUsers ds0).1.body =
      "\x7b\"users\":null\x7d\n" ∧
    (apiHandlerServeHTTP apiAdminUsersHandler env0 reqGetUsers ds0).1.body ≠
      "\x7b\"users\":[]\x7d\n" :=
  ⟨rfl, rfl, by decide⟩

/-- C8 (amended): for every authenticated GET with a successful fetch,
the gate answers 200 with the single-key `users` envelope over the
users returned by `usersQuery`, each projected to exactly the fields
email, name, enabled, in name-ascending order — except that when the
store holds zero users the envelope's `users` key is JSON `null`
rather than an array. -/
theorem C8_amended_users_listing (env : Env) (req : Request) (ds : Datastore)
    (u : GoUser) (hu : env.currentUser = some u) (hm : req.method = "GET")
    (herr : env.getAllUsersErr = none) :
    List.Sorted userLe (getAllUsers usersQuery ds) ∧
    (getAllUsers usersQuery ds = [] →
      apiAdminUsersHandler env req ds = (.usersEnvelope none, none, ds)) ∧
    (getAllUsers usersQuery ds ≠ [] →
      apiAdminUsersHandler env req ds =
        (.usersEnvelope (some ((getAllUsers usersQuery ds).map jsonUserOf)),
          none, ds)) ∧
    apiHandlerServeHTTP apiAdminUsersHandler env req ds =
      (writeJsonResponse emptyResponse (apiAdminUsersHandler env req ds).1, ds, []) ∧
    (writeJsonResponse emptyResponse (apiAdminUsersHandler env req ds).1).status =
      some 200 ∧
    (writeJsonResponse emptyResponse (apiAdminUsersHandler env req ds).1).body =
      (apiAdminUsersHandler env req ds).1.encode ++ "\n" := by
  have hsort : List.Sorted userLe (getAllUsers usersQuery ds) := by
    show List.Sorted userLe (List.insertionSort userLe
      ((ds.users.filter fun e => decide (e.1.hasAncestor punchKey)).map Prod.snd))
    exact List.sorted_insertionSort userLe _
  have h : apiAdminUsersHandler env req ds =
      (.usersEnvelope (match getAllUsers usersQuery ds with
          | [] => none
          | _ => some ((getAllUsers usersQuery ds).map jsonUserOf)),
        none, ds) := by
    unfold apiAdminUsersHandler
    rw [if_pos hm, herr]
  have hg : apiHandlerServeHTTP apiAdminUsersHandler env req ds =
      (writeJsonResponse emptyResponse (apiAdminUsersHandler env req ds).1, ds, []) := by
    unfold apiHandlerServeHTTP
    rw [hu, h]
  refine ⟨hsort, ?_, ?_, hg, ?_, ?_⟩
  · intro hnil
    rw [h, hnil]
  · intro hcons
    cases hcase : getAllUsers usersQuery ds with
    | nil => exact absurd hcase hcons
    | cons a l => rw [h, hcase]
  · rfl
  · rfl

/-- Witness for C8 (amended) at a concrete authenticated GET on an
empty store. -/
theorem C8_amended_users_listing_witness :
    apiAdminUsersHandler env0 reqGetUsers ds0 =
      (JsonData.usersEnvelope none, none, ds0) :=
  (C8_amended_users_listing env0 reqGetUsers ds0 alice rfl rfl rfl).2.1 rfl

/-- C1 counterexample: at a concrete authenticated request whose
handler returns a 400 `appError`, the JSON gate's response body is the
user message followed by the JSON encoding of the nil payload
(`null`), hence strictly more than the user message alone — the claim
that nothing else is written fails on the code for `apiHandler`. -/
theorem C1_counterexample :
    (apiHandlerServeHTTP apiAdminUsersHandler env0 reqPutUsers ds0).2.2 =
      ["Unsupported http method"] ∧
    (apiHandlerServeHTTP apiAdminUsersHandler env0 reqPutUsers ds0).1.body =
      "Unsupported http method\nnull\n" ∧
    (apiHandlerServeHTTP apiAdminUsersHandler env0 reqPutUsers ds0).1.body ≠
      "Unsupported http method\n" :=
  ⟨rfl, rfl, by decide⟩

/-- C1 (amended): for every authenticated request, whenever the wrapped
handler returns a non-nil `appError` both gates log the underlying
cause and respond with the handler-supplied message and status code —
but while the HTML gate appends nothing beyond what the handler itself
wrote, the JSON gate (which has no early return after `handleAppError`)
additionally appends the JSON encoding of the handler's returned
payload (nil, encoded `null`) to the body after the message. -/
theorem C1_amended_gate_error_handling (fn : AppHandler) (gn : ApiHandler)
    (env : Env) (req : Request) (ds : Datastore) (u : GoUser)
    (hu : env.currentUser = some u) :
    (∀ e w' ds', fn env req emptyResponse ds = (some e, w', ds') →
      appHandlerServeHTTP fn env req ds =
        (httpError w' e.message e.code, ds', [e.cause]) ∧
      (httpError w' e.message e.code).body = w'.body ++ (e.message ++ "\n")) ∧
    (∀ j e2 ds2, gn env req ds = (j, some e2, ds2) →
      apiHandlerServeHTTP gn env req ds =
        (writeJsonResponse (httpError emptyResponse e2.message e2.code) j,
          ds2, [e2.cause]) ∧
      (writeJsonResponse (httpError emptyResponse e2.message e2.code) j).body =
        (e2.message ++ "\n") ++ (j.encode ++ "\n") ∧
      (writeJsonResponse (httpError emptyResponse e2.message e2.code) j).status =
        some e2.code) := by
  constructor
  · intro e w' ds' hfn
    have h : appHandlerServeHTTP fn env req ds =
        (httpError w' e.message e.code, ds', [e.cause]) := by
      unfold appHandlerServeHTTP
      rw [hu, hfn]
      rfl
    refine ⟨h, ?_⟩
    rcases w' with ⟨hs, st, bd⟩
    cases st <;> rfl
  · intro j e2 ds2 hgn
    have h : apiHandlerServeHTTP gn env req ds =
        (writeJsonResponse (httpError emptyResponse e2.message e2.code) j,
          ds2, [e2.cause]) := by
      unfold apiHandlerServeHTTP
      rw [hu, hgn]
      rfl
    exact ⟨h, rfl, rfl⟩

/-- Witness for C1 (amended): the HTML gate converting a concrete fetch
failure from `rootHandler` into a logged cause plus a 500 response. -/
theorem C1_amended_gate_error_handling_witness :
    appHandlerServeHTTP rootHandler envFetchFail reqRoot ds0 =
      (httpError emptyResponse
        "Failed to fetch punches data from the datastore" 500, ds0,
        ["datastore: boom"]) :=
  ((C1_amended_gate_error_handling rootHandler apiAdminUsersHandler envFetchFail
      reqRoot ds0 alice rfl).1
    ⟨"datastore: boom", "Failed to fetch punches data from the datastore", 500⟩
    emptyResponse ds0 rfl).1
